import Mathlib

/-!
Verification of the haruna terminal-observation core: the snapshot data
model and delta codec (`src/vt/snapshot.ts`), the dump writer keyframe
policy (`src/dump/writer.ts`), the dump reader (`src/dump/reader.ts`),
the composite scene orchestration (`src/scene/builtin/composite.ts`),
the gateway (`src/gateway.ts`), scene-input sanitization
(`src/scene/interface.ts`), and the virtual terminal's dispose behavior
(`src/vt/index.ts`), as shallow Lean embeddings of the TypeScript source.

Conventions: JavaScript numbers are modelled as `Int` (every value that
occurs in the embedded code paths is integer-valued); arrays as `List`;
`null`/`undefined` as `Option`; thrown exceptions as `Except String`.
-/

/-- A color attribute value: a palette index (0-255) or an `"#rrggbb"` hex
string. In the source both live in one `number | string` union; the two
constructors keep the JavaScript dynamic-type distinction. -/
inductive Color
  | palette (n : Nat)
  | rgb (hex : String)
deriving DecidableEq, Repr

/-- A styled text segment (`StyledSegment` in `snapshot.ts`): text plus SGR
attributes. Attribute fields use `true | undefined` in the source, modelled
here as `Bool` (absent = `false`, matching JavaScript `===` on
`true`/`undefined`). -/
structure StyledSegment where
  t : String
  fg : Option Color := none
  bg : Option Color := none
  b : Bool := false
  d : Bool := false
  i : Bool := false
  u : Bool := false
  s : Bool := false
  v : Bool := false
  o : Bool := false
deriving DecidableEq, Repr

/-- A rich segment: a plain string or a styled segment (`RichSegment`). -/
inductive RichSegment
  | str (s : String)
  | styled (seg : StyledSegment)
deriving DecidableEq, Repr

/-- Rich text: a plain string shorthand or an array of segments
(`RichText`). The two representations are structurally distinct, exactly as
`typeof` distinguishes them in the source. -/
inductive RichText
  | plain (s : String)
  | segs (l : List RichSegment)
deriving DecidableEq, Repr

instance : Inhabited RichText := ⟨RichText.plain ""⟩

/-- `richSegmentEqual` from `snapshot.ts`: a string segment and a styled
segment are unequal (`typeof` branch), two styled segments compare
field-by-field with `===`. -/
def richSegmentEqual : RichSegment → RichSegment → Bool
  | .str x, .str y => decide (x = y)
  | .styled x, .styled y =>
      decide (x.t = y.t) && decide (x.fg = y.fg) && decide (x.bg = y.bg) &&
      decide (x.b = y.b) && decide (x.d = y.d) && decide (x.i = y.i) &&
      decide (x.u = y.u) && decide (x.s = y.s) && decide (x.v = y.v) &&
      decide (x.o = y.o)
  | _, _ => false

/-- `richTextEqual` from `snapshot.ts`: plain strings compare directly, a
plain string never equals a segment array, and segment arrays compare by
length and element-wise (the length check plus indexed loop is embedded as
a simultaneous list recursion). -/
def richSegmentsEqual : List RichSegment → List RichSegment → Bool
  | [], [] => true
  | x :: xs, y :: ys => richSegmentEqual x y && richSegmentsEqual xs ys
  | _, _ => false

/-- `richTextEqual` from `snapshot.ts` (see `richSegmentsEqual` for the
array case). -/
def richTextEqual : RichText → RichText → Bool
  | .plain x, .plain y => decide (x = y)
  | .segs x, .segs y => richSegmentsEqual x y
  | _, _ => false

/-- `richTextLinesEqual` from `snapshot.ts`: length check plus element-wise
`richTextEqual`, embedded as a simultaneous list recursion. -/
def richTextLinesEqual : List RichText → List RichText → Bool
  | [], [] => true
  | x :: xs, y :: ys => richTextEqual x y && richTextLinesEqual xs ys
  | _, _ => false

theorem richSegmentEqual_iff (x y : RichSegment) :
    richSegmentEqual x y = true ↔ x = y := by
  cases x with
  | str a =>
    cases y with
    | str b => simp [richSegmentEqual]
    | styled b => simp [richSegmentEqual]
  | styled a =>
    cases y with
    | str b => simp [richSegmentEqual]
    | styled b =>
      cases a; cases b
      simp [richSegmentEqual, StyledSegment.mk.injEq, and_assoc]

theorem richSegmentsEqual_iff (x y : List RichSegment) :
    richSegmentsEqual x y = true ↔ x = y := by
  induction x generalizing y with
  | nil => cases y <;> simp [richSegmentsEqual]
  | cons a xs ih =>
    cases y with
    | nil => simp [richSegmentsEqual]
    | cons b ys => simp [richSegmentsEqual, richSegmentEqual_iff, ih]

theorem richTextEqual_iff (x y : RichText) :
    richTextEqual x y = true ↔ x = y := by
  cases x with
  | plain a => cases y <;> simp [richTextEqual]
  | segs a =>
    cases y with
    | plain b => simp [richTextEqual]
    | segs b => simp [richTextEqual, richSegmentsEqual_iff]

theorem richTextLinesEqual_iff (x y : List RichText) :
    richTextLinesEqual x y = true ↔ x = y := by
  induction x generalizing y with
  | nil => cases y <;> simp [richTextLinesEqual]
  | cons a xs ih =>
    cases y with
    | nil => simp [richTextLinesEqual]
    | cons b ys => simp [richTextLinesEqual, richTextEqual_iff, ih]

/-- `CursorState` from `snapshot.ts`. -/
structure CursorState where
  x : Int
  y : Int
  visible : Bool
deriving DecidableEq, Repr

/-- `Snapshot` from `snapshot.ts`. -/
structure Snapshot where
  lines : List RichText
  cursor : CursorState
  cols : Int
  rows : Int
  alternate : Bool
  linesOffset : Option Int
  timestamp : Int
deriving DecidableEq, Repr

/-- `snapshotsEqual` from `snapshot.ts`: all fields except `timestamp`
compare equal; lines compare via `richTextLinesEqual`. -/
def snapshotsEqual (a b : Snapshot) : Bool :=
  decide (a.cursor.x = b.cursor.x) && decide (a.cursor.y = b.cursor.y) &&
  decide (a.cursor.visible = b.cursor.visible) && decide (a.cols = b.cols) &&
  decide (a.rows = b.rows) && decide (a.alternate = b.alternate) &&
  decide (a.linesOffset = b.linesOffset) &&
  richTextLinesEqual a.lines b.lines

theorem CursorState.eq_iff (p q : CursorState) :
    p = q ↔ p.x = q.x ∧ p.y = q.y ∧ p.visible = q.visible := by
  cases p; cases q; simp

theorem snapshotsEqual_iff (a b : Snapshot) :
    snapshotsEqual a b = true ↔
      a.cursor = b.cursor ∧ a.cols = b.cols ∧ a.rows = b.rows ∧
      a.alternate = b.alternate ∧ a.linesOffset = b.linesOffset ∧
      a.lines = b.lines := by
  simp only [snapshotsEqual, Bool.and_eq_true, decide_eq_true_eq,
    richTextLinesEqual_iff, CursorState.eq_iff a.cursor b.cursor]
  tauto

/-- `SnapshotDelta` from `snapshot.ts`: each field is present only when the
corresponding part of the snapshot changed. `shift` is a non-negative line
count; a `(index, none)` entry in `lines` is the truncation marker. -/
structure SnapshotDelta where
  shift : Option Nat := none
  lines : Option (List (Nat × Option RichText)) := none
  cursor : Option CursorState := none
  cols : Option Int := none
  rows : Option Int := none
  alternate : Option Bool := none
deriving DecidableEq, Repr

/-- The line-patch list built by the three loops of `computeSnapshotDiff`
(overlap comparison at post-shift indices, lines appended beyond the
previous range, and the single truncation marker), as one simultaneous
recursion over the shifted previous lines and the current lines. The
first argument is the current absolute post-shift index. -/
def diffLineList : Nat → List RichText → List RichText → List (Nat × Option RichText)
  | _, [], [] => []
  | n, [], c :: cs => (n, some c) :: diffLineList (n + 1) [] cs
  | n, _ :: _, [] => [(n, none)]
  | n, p :: ps, c :: cs =>
      if richTextEqual p c then diffLineList (n + 1) ps cs
      else (n, some c) :: diffLineList (n + 1) ps cs

/-- `computeSnapshotDiff` from `snapshot.ts`. Returns `none` when
`curr.linesOffset` is null or the shift would be negative. -/
def computeSnapshotDiff (prev curr : Snapshot) : Option SnapshotDelta :=
  match curr.linesOffset with
  | none => none
  | some currOff =>
    let prevOff := prev.linesOffset.getD 0
    if currOff < prevOff then none
    else
      let shift := (currOff - prevOff).toNat
      let changedLines := diffLineList 0 (prev.lines.drop shift) curr.lines
      some
        { shift := if shift > 0 then some shift else none
          lines := if changedLines.length > 0 then some changedLines else none
          cursor :=
            if prev.cursor.x ≠ curr.cursor.x ∨ prev.cursor.y ≠ curr.cursor.y ∨
                prev.cursor.visible ≠ curr.cursor.visible
            then some curr.cursor else none
          cols := if prev.cols ≠ curr.cols then some curr.cols else none
          rows := if prev.rows ≠ curr.rows then some curr.rows else none
          alternate :=
            if prev.alternate ≠ curr.alternate then some curr.alternate
            else none }

/-- The line-patch loop of `applySnapshotDiff`: a `(index, none)` entry
truncates the working array at `index` and stops; a `(index, some c)`
entry extends the array with empty lines up to `index` and assigns `c`. -/
def applyLinePatches : List RichText → List (Nat × Option RichText) → List RichText
  | ls, [] => ls
  | ls, (idx, none) :: _ => ls.take idx
  | ls, (idx, some c) :: rest =>
      let extended :=
        if ls.length ≤ idx then
          ls ++ List.replicate (idx + 1 - ls.length) (RichText.plain "")
        else ls
      applyLinePatches (extended.set idx c) rest

/-- `applySnapshotDiff` from `snapshot.ts`: shift, then line patches, then
carry forward unchanged scalar fields. -/
def applySnapshotDiff (base : Snapshot) (delta : SnapshotDelta)
    (timestamp : Int) : Snapshot :=
  let lines := base.lines.drop (delta.shift.getD 0)
  let lines := applyLinePatches lines (delta.lines.getD [])
  { lines := lines
    cursor := delta.cursor.getD base.cursor
    cols := delta.cols.getD base.cols
    rows := delta.rows.getD base.rows
    alternate := delta.alternate.getD base.alternate
    linesOffset := some (base.linesOffset.getD 0 + (delta.shift.getD 0 : Nat))
    timestamp := timestamp }

theorem set_append_cons {α : Type} (X ys : List α) (a c : α) :
    (X ++ a :: ys).set X.length c = X ++ c :: ys := by
  induction X with
  | nil => rfl
  | cons x xs ih => simp [List.set, ih]

theorem applyLinePatches_diffLineList (cs : List RichText) :
    ∀ (ps X : List RichText),
      applyLinePatches (X ++ ps) (diffLineList X.length ps cs) = X ++ cs := by
  induction cs with
  | nil =>
    intro ps X
    cases ps with
    | nil => simp [diffLineList, applyLinePatches]
    | cons p ps =>
      simp [diffLineList, applyLinePatches, List.take_left]
  | cons c cs ih =>
    intro ps X
    cases ps with
    | nil =>
      simp only [diffLineList, applyLinePatches, List.append_nil]
      have hlen : ¬ X.length + 1 - X.length = 0 := by omega
      have h1 : (X ++ List.replicate (X.length + 1 - X.length) (RichText.plain "")).set X.length c
          = X ++ [c] := by
        have : X.length + 1 - X.length = 1 := by omega
        rw [this]
        simp only [List.replicate_succ, List.replicate_zero]
        exact set_append_cons X [] (RichText.plain "") c
      rw [if_pos (by omega), h1]
      have := ih [] (X ++ [c])
      simpa [List.append_assoc] using this
    | cons p ps =>
      by_cases hpc : richTextEqual p c
      · have hp : p = c := (richTextEqual_iff p c).mp hpc
        simp only [diffLineList, if_pos hpc]
        have h1 : X ++ p :: ps = (X ++ [p]) ++ ps := by simp
        have h2 : X.length + 1 = (X ++ [p]).length := by simp
        rw [h1, h2]
        have := ih ps (X ++ [p])
        simpa [hp, List.append_assoc] using this
      · simp only [diffLineList, if_neg hpc, applyLinePatches]
        rw [if_neg (by simp)]
        rw [set_append_cons X ps p c]
        have h1 : X ++ c :: ps = (X ++ [c]) ++ ps := by simp
        have h2 : X.length + 1 = (X ++ [c]).length := by simp
        rw [h1, h2]
        have := ih ps (X ++ [c])
        simpa [List.append_assoc] using this

theorem applyLinePatches_diffLineList_zero (ps cs : List RichText) :
    applyLinePatches ps (diffLineList 0 ps cs) = cs := by
  simpa using applyLinePatches_diffLineList cs ps []

theorem opt_if_getD_nat (n : Nat) :
    (if n > 0 then some n else none).getD 0 = n := by
  by_cases h : n > 0
  · simp [h]
  · simp [h]
    omega

theorem opt_if_getD_list {α : Type} (l : List (Nat × Option α)) :
    (if l.length > 0 then some l else none).getD [] = l := by
  by_cases h : l.length > 0
  · simp [h]
  · have h0 : l = [] := List.length_eq_zero.mp (by omega)
    simp [h, h0]

/-- **C1.** Delta round-trip: whenever `computeSnapshotDiff prev curr` is
non-null, applying the resulting delta to `prev` with `curr.timestamp`
reconstructs `curr` exactly (all fields: lines, cursor, cols, rows,
alternate, linesOffset and timestamp). -/
theorem computeSnapshotDiff_roundtrip (prev curr : Snapshot) (d : SnapshotDelta)
    (h : computeSnapshotDiff prev curr = some d) :
    applySnapshotDiff prev d curr.timestamp = curr := by
  obtain ⟨plines, pcur, pcols, prows, palt, poff, pts⟩ := prev
  obtain ⟨clines, ccur, ccols, crows, calt, coff, cts⟩ := curr
  cases coff with
  | none => simp [computeSnapshotDiff] at h
  | some currOff =>
    simp only [computeSnapshotDiff] at h
    by_cases hlt : currOff < Option.getD poff 0
    · rw [if_pos hlt] at h; simp at h
    · rw [if_neg hlt] at h
      simp only [Option.some.injEq] at h
      subst h
      simp only [applySnapshotDiff, opt_if_getD_nat, opt_if_getD_list,
        applyLinePatches_diffLineList_zero, Snapshot.mk.injEq]
      refine ⟨trivial, ?_, ?_, ?_, ?_, ?_, trivial⟩
      · by_cases hc : pcur.x ≠ ccur.x ∨ pcur.y ≠ ccur.y ∨
            pcur.visible ≠ ccur.visible
        · simp [hc]
        · have hpc : pcur = ccur := by
            push_neg at hc
            rw [CursorState.eq_iff]
            exact ⟨hc.1, hc.2.1, hc.2.2⟩
          simp [hc, hpc]
      · by_cases hc : pcols ≠ ccols
        · simp [hc]
        · simp [hc]
          omega
      · by_cases hc : prows ≠ crows
        · simp [hc]
        · simp [hc]
          omega
      · by_cases hc : palt ≠ calt
        · simp [hc]
        · simp [hc]
          exact not_not.mp hc
      · simp only [Option.some.injEq]
        omega

/-- A sample snapshot used to instantiate the quantified theorems. -/
def sampleSnapA : Snapshot :=
  { lines := [RichText.plain "a"]
    cursor := { x := 0, y := 0, visible := true }
    cols := 80, rows := 24, alternate := false
    linesOffset := some 0, timestamp := 0 }

/-- A second sample snapshot: one line scrolled out, one appended. -/
def sampleSnapB : Snapshot :=
  { lines := [RichText.plain "a", RichText.plain "b"]
    cursor := { x := 0, y := 0, visible := true }
    cols := 80, rows := 24, alternate := false
    linesOffset := some 1, timestamp := 5 }

/-- The delta computed between the two sample snapshots. -/
def sampleDelta : SnapshotDelta :=
  { shift := some 1
    lines := some [(0, some (RichText.plain "a")), (1, some (RichText.plain "b"))] }

theorem computeSnapshotDiff_roundtrip_witness :
    applySnapshotDiff sampleSnapA sampleDelta sampleSnapB.timestamp = sampleSnapB :=
  computeSnapshotDiff_roundtrip sampleSnapA sampleSnapB sampleDelta (by decide)

/-- A snapshot whose single line is the plain-string shorthand `"x"`. -/
def plainLineSnap : Snapshot :=
  { lines := [RichText.plain "x"]
    cursor := { x := 0, y := 0, visible := true }
    cols := 80, rows := 24, alternate := false
    linesOffset := some 0, timestamp := 0 }

/-- The same snapshot except the line is the one-element segment array
`["x"]`. -/
def segLineSnap : Snapshot :=
  { lines := [RichText.segs [RichSegment.str "x"]]
    cursor := { x := 0, y := 0, visible := true }
    cols := 80, rows := 24, alternate := false
    linesOffset := some 0, timestamp := 0 }

/-- **C2.** Snapshot equality ignores exactly the timestamp and is
structural on rich text: `snapshotsEqual a b` holds iff `a` and `b` agree
on cursor `(x, y, visible)`, `cols`, `rows`, `alternate`, `linesOffset`,
and structurally equal lines; two snapshots differing only in timestamp
are equal; the plain string `"x"` compares unequal to the one-element
segment array `["x"]`, so two snapshots differing only in that
representation are unequal. -/
theorem snapshotsEqual_characterization :
    (∀ a b : Snapshot, snapshotsEqual a b = true ↔
      (a.cursor.x = b.cursor.x ∧ a.cursor.y = b.cursor.y ∧
        a.cursor.visible = b.cursor.visible) ∧
      a.cols = b.cols ∧ a.rows = b.rows ∧ a.alternate = b.alternate ∧
      a.linesOffset = b.linesOffset ∧ a.lines = b.lines) ∧
    (∀ (b : Snapshot) (t : Int),
      snapshotsEqual { b with timestamp := t } b = true) ∧
    richTextEqual (RichText.plain "x") (RichText.segs [RichSegment.str "x"]) =
      false ∧
    snapshotsEqual plainLineSnap segLineSnap = false := by
  refine ⟨?_, ?_, by decide, by decide⟩
  · intro a b
    rw [snapshotsEqual_iff, CursorState.eq_iff]
  · intro b t
    rw [snapshotsEqual_iff]
    simp

theorem snapshotsEqual_characterization_witness :
    snapshotsEqual { sampleSnapA with timestamp := 99 } sampleSnapA = true :=
  snapshotsEqual_characterization.2.1 sampleSnapA 99

theorem diffLineList_self (ls : List RichText) :
    ∀ n, diffLineList n ls ls = [] := by
  induction ls with
  | nil => intro n; rfl
  | cons x xs ih =>
    intro n
    simp [diffLineList, (richTextEqual_iff x x).mpr rfl, ih]

/-- **C10.** Empty delta for unchanged snapshots: for every snapshot `s`
with non-null `linesOffset` and every `sB` equal to `s` under
`snapshotsEqual` (i.e. differing at most in timestamp),
`computeSnapshotDiff s sB` returns a delta with no fields present — never
`none`. -/
theorem computeSnapshotDiff_of_equal (s sB : Snapshot) (off : Int)
    (hoff : s.linesOffset = some off) (heq : snapshotsEqual s sB = true) :
    computeSnapshotDiff s sB = some {} := by
  rw [snapshotsEqual_iff] at heq
  obtain ⟨hcur, hcols, hrows, halt, hloff, hlines⟩ := heq
  have hboff : sB.linesOffset = some off := by rw [← hloff]; exact hoff
  simp only [computeSnapshotDiff, hboff, hoff, Option.getD_some]
  rw [if_neg (lt_irrefl off)]
  simp [sub_self, diffLineList_self, hlines, hcur, hcols, hrows, halt]

theorem computeSnapshotDiff_of_equal_witness :
    computeSnapshotDiff sampleSnapA { sampleSnapA with timestamp := 7 } =
      some {} :=
  computeSnapshotDiff_of_equal sampleSnapA { sampleSnapA with timestamp := 7 }
    0 (by decide) (by decide)

/-- `KeyframePolicy` options from `writer.ts` (defaults: 5000 ms interval,
size ratio 2). The source's `keyframeSizeRatio` is a JavaScript number; it
is integral here (the default and every use in the repository is
integral). -/
structure KeyframePolicy where
  keyframeIntervalMs : Int := 5000
  keyframeSizeRatio : Nat := 2
deriving Repr

/-- The mutable fields of `DumpWriter` from `writer.ts`. -/
structure WriterState where
  lastSnapshot : Option Snapshot
  lastKeyframeTime : Int
  bytesSinceKeyframe : Nat
  lastKeyframeSize : Nat
deriving DecidableEq, Repr

/-- Writer state right after the constructor wrote the header frame. -/
def initWriterState : WriterState :=
  { lastSnapshot := none, lastKeyframeTime := 0, bytesSinceKeyframe := 0
    lastKeyframeSize := 0 }

/-- The kind of frame `DumpWriter.write` appends for a snapshot. -/
inductive FrameKind
  | keyframe
  | delta
deriving DecidableEq, Repr

/-- Length in bytes of an encoded frame (`encodeFrame` in `frame.ts`): the
13-byte envelope (type tag, f64 timestamp, u32 length) plus the MessagePack
payload, whose size is abstracted as a parameter. -/
def frameLength (payloadSize : Nat) : Nat := 13 + payloadSize

/-- `DumpWriter.write` from `writer.ts`, parameterized by the MessagePack
payload-size functions `kfSize` (keyframe payload: the snapshot without its
timestamp) and `deltaSize`. Returns the updated writer state and the kind
of frame appended. -/
def writerWrite (opts : KeyframePolicy) (kfSize : Snapshot → Nat)
    (deltaSize : SnapshotDelta → Nat) (st : WriterState) (snapshot : Snapshot) :
    WriterState × FrameKind :=
  let delta : Option SnapshotDelta :=
    match st.lastSnapshot with
    | none => none
    | some prev =>
      if snapshot.timestamp - st.lastKeyframeTime < opts.keyframeIntervalMs ∧
          ¬(st.lastKeyframeSize > 0 ∧
            st.bytesSinceKeyframe > st.lastKeyframeSize * opts.keyframeSizeRatio)
      then computeSnapshotDiff prev snapshot
      else none
  match delta with
  | some dl =>
      ({ st with
          lastSnapshot := some snapshot
          bytesSinceKeyframe :=
            st.bytesSinceKeyframe + frameLength (deltaSize dl) },
        FrameKind.delta)
  | none =>
      ({ lastSnapshot := some snapshot
         lastKeyframeTime := snapshot.timestamp
         bytesSinceKeyframe := 0
         lastKeyframeSize := frameLength (kfSize snapshot) },
        FrameKind.keyframe)

/-- The loop of `DumpWriter.writeAll`: fold `write` over a snapshot list,
collecting the appended frame kinds in order. -/
def writerRun (opts : KeyframePolicy) (kfSize : Snapshot → Nat)
    (deltaSize : SnapshotDelta → Nat) :
    WriterState → List Snapshot → WriterState × List FrameKind
  | st, [] => (st, [])
  | st, s :: rest =>
      let step := writerWrite opts kfSize deltaSize st s
      let next := writerRun opts kfSize deltaSize step.1 rest
      (next.1, step.2 :: next.2)

theorem writerWrite_keyframeSize_pos (opts : KeyframePolicy)
    (kfSize : Snapshot → Nat) (deltaSize : SnapshotDelta → Nat)
    (st : WriterState) (s : Snapshot)
    (h : st.lastSnapshot = none ∨ 0 < st.lastKeyframeSize) :
    0 < (writerWrite opts kfSize deltaSize st s).1.lastKeyframeSize := by
  cases hls : st.lastSnapshot with
  | none => simp [writerWrite, hls, frameLength]
  | some prev =>
    have hpos : 0 < st.lastKeyframeSize := by
      rcases h with h | h
      · rw [hls] at h; exact absurd h (by simp)
      · exact h
    simp only [writerWrite, hls]
    by_cases hc : s.timestamp - st.lastKeyframeTime < opts.keyframeIntervalMs ∧
        ¬(st.lastKeyframeSize > 0 ∧
          st.bytesSinceKeyframe > st.lastKeyframeSize * opts.keyframeSizeRatio)
    · rw [if_pos hc]
      cases hd : computeSnapshotDiff prev s with
      | none => simp [frameLength]
      | some dl => simpa using hpos
    · rw [if_neg hc]
      simp [frameLength]

theorem writerRun_keyframeSize_pos (opts : KeyframePolicy)
    (kfSize : Snapshot → Nat) (deltaSize : SnapshotDelta → Nat) :
    ∀ (ss : List Snapshot) (st : WriterState),
      st.lastSnapshot = none ∨ 0 < st.lastKeyframeSize →
      (writerRun opts kfSize deltaSize st ss).1.lastSnapshot = none ∨
        0 < (writerRun opts kfSize deltaSize st ss).1.lastKeyframeSize := by
  intro ss
  induction ss with
  | nil => intro st h; simpa [writerRun] using h
  | cons s rest ih =>
    intro st h
    simp only [writerRun]
    exact ih _ (Or.inr (writerWrite_keyframeSize_pos opts kfSize deltaSize st s h))

/-- **C3.** Dump writer keyframe policy. With `st` the writer state (the
states reached from the post-header initial state satisfy
`lastSnapshot ≠ none → 0 < lastKeyframeSize`, per the last conjunct):
the first snapshot is always written as a keyframe; a subsequent snapshot
is written as a delta iff (i) its timestamp minus the last keyframe's
timestamp is strictly below `keyframeIntervalMs`, (ii) the cumulative delta
bytes since the last keyframe do not exceed `keyframeSizeRatio` times the
last keyframe's byte size, and (iii) `computeSnapshotDiff` of the previous
snapshot is non-null; a keyframe records its byte size, resets the
cumulative delta-byte counter, and records its timestamp. -/
theorem dumpWriter_keyframe_policy (opts : KeyframePolicy)
    (kfSize : Snapshot → Nat) (deltaSize : SnapshotDelta → Nat) :
    (∀ (st : WriterState) (s : Snapshot), st.lastSnapshot = none →
      (writerWrite opts kfSize deltaSize st s).2 = FrameKind.keyframe) ∧
    (∀ (st : WriterState) (s prev : Snapshot), st.lastSnapshot = some prev →
      0 < st.lastKeyframeSize →
      ((writerWrite opts kfSize deltaSize st s).2 = FrameKind.delta ↔
        s.timestamp - st.lastKeyframeTime < opts.keyframeIntervalMs ∧
        st.bytesSinceKeyframe ≤ st.lastKeyframeSize * opts.keyframeSizeRatio ∧
        computeSnapshotDiff prev s ≠ none)) ∧
    (∀ (st : WriterState) (s : Snapshot),
      (writerWrite opts kfSize deltaSize st s).2 = FrameKind.keyframe →
      (writerWrite opts kfSize deltaSize st s).1.bytesSinceKeyframe = 0 ∧
      (writerWrite opts kfSize deltaSize st s).1.lastKeyframeSize =
        frameLength (kfSize s) ∧
      (writerWrite opts kfSize deltaSize st s).1.lastKeyframeTime =
        s.timestamp) ∧
    (∀ (s : Snapshot) (rest : List Snapshot),
      (writerRun opts kfSize deltaSize initWriterState (s :: rest)).2.head? =
        some FrameKind.keyframe) ∧
    (∀ ss : List Snapshot,
      (writerRun opts kfSize deltaSize initWriterState ss).1.lastSnapshot =
          none ∨
        0 < (writerRun opts kfSize deltaSize initWriterState ss).1.lastKeyframeSize) := by
  have hfirst : ∀ (st : WriterState) (s : Snapshot), st.lastSnapshot = none →
      (writerWrite opts kfSize deltaSize st s).2 = FrameKind.keyframe := by
    intro st s h
    simp [writerWrite, h]
  refine ⟨hfirst, ?_, ?_, ?_, ?_⟩
  · intro st s prev hls hpos
    simp only [writerWrite, hls]
    by_cases hc : s.timestamp - st.lastKeyframeTime < opts.keyframeIntervalMs ∧
        ¬(st.lastKeyframeSize > 0 ∧
          st.bytesSinceKeyframe > st.lastKeyframeSize * opts.keyframeSizeRatio)
    · rw [if_pos hc]
      cases hd : computeSnapshotDiff prev s with
      | none => simp [hd, hc.1]
      | some dl =>
        simp [hd, hc.1]
        omega
    · rw [if_neg hc]
      constructor
      · intro h
        exact absurd h (by simp)
      · intro hr
        exfalso
        exact hc ⟨hr.1, fun hbc => absurd hbc.2 (by omega)⟩
  · intro st s h
    cases hls : st.lastSnapshot with
    | none => simp [writerWrite, hls]
    | some prev =>
      simp only [writerWrite, hls] at h ⊢
      by_cases hc : s.timestamp - st.lastKeyframeTime < opts.keyframeIntervalMs ∧
          ¬(st.lastKeyframeSize > 0 ∧
            st.bytesSinceKeyframe > st.lastKeyframeSize * opts.keyframeSizeRatio)
      · rw [if_pos hc] at h ⊢
        cases hd : computeSnapshotDiff prev s with
        | none => simp [hd]
        | some dl => rw [hd] at h; exact absurd h (by simp)
      · rw [if_neg hc] at h ⊢
        simp
  · intro s rest
    simp only [writerRun, List.head?]
    rw [hfirst initWriterState s rfl]
  · intro ss
    exact writerRun_keyframeSize_pos opts kfSize deltaSize ss initWriterState
      (Or.inl rfl)

theorem dumpWriter_keyframe_policy_witness :
    (writerWrite {} (fun _ => 40) (fun _ => 10) initWriterState sampleSnapA).2 =
      FrameKind.keyframe :=
  (dumpWriter_keyframe_policy {} (fun _ => 40) (fun _ => 10)).1
    initWriterState sampleSnapA rfl

/-- `Omit<Snapshot, "timestamp">`: the payload of a keyframe frame. -/
structure KeyframePayload where
  lines : List RichText
  cursor : CursorState
  cols : Int
  rows : Int
  alternate : Bool
  linesOffset : Option Int
deriving DecidableEq, Repr

/-- Rebuild a snapshot from a keyframe payload and the frame envelope
timestamp (`{ ...record.payload, timestamp: record.timestamp }` in
`DumpReader.reconstruct`). -/
def KeyframePayload.toSnapshot (p : KeyframePayload) (timestamp : Int) :
    Snapshot :=
  { lines := p.lines, cursor := p.cursor, cols := p.cols, rows := p.rows
    alternate := p.alternate, linesOffset := p.linesOffset
    timestamp := timestamp }

/-- The decoded content of a dump frame (the `DumpFrame` union in
`frame.ts`). -/
inductive DumpContent
  | header (command : List String)
  | keyframe (payload : KeyframePayload)
  | delta (payload : SnapshotDelta)
deriving DecidableEq, Repr

/-- A decoded frame: envelope timestamp plus content. Byte-level decoding
(`decodeFrame`) is abstracted away: the reader is modelled over the list
of frames its index-building loop decodes from the file buffer. -/
structure DumpFrame where
  timestamp : Int
  content : DumpContent
deriving DecidableEq, Repr

/-- The record of an indexed snapshot frame. `IndexEntry` in `reader.ts`
stores a byte offset and `reconstruct` re-decodes it; the entry here
carries the decoded record directly (decoding the same bytes twice yields
the same frame). -/
inductive SnapRecord
  | keyframe (payload : KeyframePayload)
  | delta (payload : SnapshotDelta)
deriving DecidableEq, Repr

/-- Whether an index entry's `type` field is `"keyframe"`. -/
def SnapRecord.isKeyframe : SnapRecord → Bool
  | .keyframe _ => true
  | .delta _ => false

/-- `IndexEntry` from `reader.ts` (with the decoded record in place of the
byte offset). -/
structure IndexEntry where
  record : SnapRecord
  timestamp : Int
deriving DecidableEq, Repr

instance : Inhabited IndexEntry := ⟨⟨SnapRecord.delta {}, 0⟩⟩

/-- The delta change summary of `SnapshotEntry` in `reader.ts`. -/
structure DeltaSummary where
  changedLines : List Nat
  scrolledLines : Nat
  cursorMoved : Bool
deriving DecidableEq, Repr

/-- `summarizeDelta` from `reader.ts`. -/
def summarizeDelta (diff : SnapshotDelta) : DeltaSummary :=
  { changedLines := (diff.lines.getD []).map Prod.fst
    scrolledLines := diff.shift.getD 0
    cursorMoved := diff.cursor.isSome }

/-- `SnapshotEntry` from `reader.ts`. -/
structure SnapshotEntry where
  snapshot : Snapshot
  delta : Option DeltaSummary
deriving DecidableEq, Repr

/-- The in-memory state of a `DumpReader`. -/
structure DumpReader where
  header : List String
  index : List IndexEntry
deriving DecidableEq, Repr

/-- The `DumpReader` constructor (reached via `DumpReader.open`): the first
frame must be a header (otherwise "no header" is thrown), then every
keyframe/delta frame is indexed in order; other frames are skipped. -/
def mkDumpReader : List DumpFrame → Except String DumpReader
  | [] => .error "Dump file has no header frame"
  | f :: rest =>
    match f.content with
    | .header command =>
        .ok { header := command
              index := rest.filterMap fun g =>
                match g.content with
                | .keyframe p => some ⟨SnapRecord.keyframe p, g.timestamp⟩
                | .delta dl => some ⟨SnapRecord.delta dl, g.timestamp⟩
                | .header _ => none }
    | _ => .error "Dump file has no header frame"

/-- Timestamp of the index entry at integer position `k`. -/
def tsAt (entries : List IndexEntry) (k : Int) : Int :=
  (entries.getD k.toNat default).timestamp

/-- The binary-search loop of `DumpReader.upperBound`: the last index with
`timestamp ≤ target`, `-1` if none. `(lo + hi) >>> 1` in the source is
floor division by two (both bounds are non-negative and far below 2^31);
`result` always trails as `lo - 1`. -/
def upperBoundAux (entries : List IndexEntry) (target : Int) (lo hi : Int)
    (result : Int) : Int :=
  if h : lo ≤ hi then
    let mid := (lo + hi) / 2
    if tsAt entries mid ≤ target then
      upperBoundAux entries target (mid + 1) hi mid
    else
      upperBoundAux entries target lo (mid - 1) result
  else result
termination_by (hi + 1 - lo).toNat
decreasing_by
  · omega
  · omega

/-- `DumpReader.upperBound` from `reader.ts`. -/
def DumpReader.upperBound (r : DumpReader) (target : Int) : Int :=
  upperBoundAux r.index target 0 ((r.index.length : Int) - 1) (-1)

/-- `DumpReader.findKeyframeBefore`: scan downward from `i` for the nearest
keyframe entry, `-1` if none. -/
def findKeyframeBeforeAux (entries : List IndexEntry) (i : Int) : Int :=
  if h : 0 ≤ i then
    if (entries.getD i.toNat default).record.isKeyframe then i
    else findKeyframeBeforeAux entries (i - 1)
  else -1
termination_by (i + 1).toNat
decreasing_by
  omega

/-- `DumpReader.reconstruct` from `reader.ts`: replay frames from index `i`
up to `endIdx`, threading the current snapshot, yielding entries at
positions `≥ yieldFrom`, and throwing on a delta with no prior keyframe. -/
def reconstructAux (entries : List IndexEntry) (yieldFrom endIdx : Int)
    (i : Int) (current : Option Snapshot) :
    Except String (List SnapshotEntry) :=
  if h : i ≤ endIdx then
    let entry := entries.getD i.toNat default
    match entry.record with
    | .keyframe p =>
        let curr := p.toSnapshot entry.timestamp
        let deltaInfo : Option DeltaSummary :=
          match current with
          | some prev => (computeSnapshotDiff prev curr).map summarizeDelta
          | none => none
        match reconstructAux entries yieldFrom endIdx (i + 1) (some curr) with
        | .error e => .error e
        | .ok rest =>
            .ok (if yieldFrom ≤ i then ⟨curr, deltaInfo⟩ :: rest else rest)
    | .delta dl =>
        match current with
        | none => .error "Delta frame before any keyframe"
        | some prev =>
            let curr := applySnapshotDiff prev dl entry.timestamp
            match reconstructAux entries yieldFrom endIdx (i + 1) (some curr) with
            | .error e => .error e
            | .ok rest =>
                .ok (if yieldFrom ≤ i then
                      ⟨curr, some (summarizeDelta dl)⟩ :: rest
                    else rest)
  else .ok []
termination_by (endIdx + 1 - i).toNat
decreasing_by
  · omega
  · omega

/-- `DumpReader.snapshots()` (no `from` argument) from `reader.ts`,
collected into a list: starts at index 0, looks back for a keyframe, and
silently ends (`return`) when there is none. -/
def DumpReader.snapshotsAll (r : DumpReader) :
    Except String (List SnapshotEntry) :=
  if r.index.length = 0 then .ok []
  else
    let startKeyframe := findKeyframeBeforeAux r.index 0
    if startKeyframe < 0 then .ok []
    else
      reconstructAux r.index 0 ((r.index.length : Int) - 1) startKeyframe none

/-- `DumpReader.snapshotNearestTo` from `reader.ts`: upper-bound search,
keyframe lookback, replay up to the target index, and return the single
yielded entry (`for ... return entry; return null`). -/
def DumpReader.snapshotNearestTo (r : DumpReader) (timestamp : Int) :
    Except String (Option SnapshotEntry) :=
  if r.index.length = 0 then .ok none
  else
    let targetIdx := r.upperBound timestamp
    if targetIdx < 0 then .ok none
    else
      let keyframeIdx := findKeyframeBeforeAux r.index targetIdx
      if keyframeIdx < 0 then .ok none
      else
        match reconstructAux r.index targetIdx targetIdx keyframeIdx none with
        | .error e => .error e
        | .ok entries => .ok entries.head?

/-- A dump file whose only snapshot frame is a delta (no keyframe). -/
def c4File : List DumpFrame :=
  [⟨0, DumpContent.header ["sh"]⟩, ⟨5, DumpContent.delta {}⟩]

/-- The reader state built from `c4File`. -/
def c4Reader : DumpReader :=
  { header := ["sh"], index := [⟨SnapRecord.delta {}, 5⟩] }

/-- **C4 counterexample.** A dump whose first snapshot frame is a delta is
*not* rejected: `DumpReader.open` succeeds and `snapshots()` ends silently
with no entries and no error (the `findKeyframeBefore < 0` guard returns
before the "Delta frame before any keyframe" throw can be reached),
contrary to the claim that a format error is raised rather than silently
yielding nothing. -/
theorem dumpReader_delta_before_keyframe_counterexample :
    mkDumpReader c4File = .ok c4Reader ∧
    DumpReader.snapshotsAll c4Reader = .ok [] ∧
    DumpReader.snapshotNearestTo c4Reader 5 = .ok none := by
  refine ⟨rfl, ?_, ?_⟩
  · have hk : findKeyframeBeforeAux c4Reader.index 0 = -1 := by
      rw [findKeyframeBeforeAux]
      norm_num [c4Reader, List.getD, SnapRecord.isKeyframe]
      rw [findKeyframeBeforeAux]
      norm_num
    simp only [c4Reader] at hk
    simp [DumpReader.snapshotsAll, c4Reader, hk]
  · have hub : DumpReader.upperBound c4Reader 5 = 0 := by
      rw [DumpReader.upperBound, upperBoundAux]
      norm_num [c4Reader, tsAt, List.getD]
      rw [upperBoundAux]
      norm_num
    have hk : findKeyframeBeforeAux c4Reader.index 0 = -1 := by
      rw [findKeyframeBeforeAux]
      norm_num [c4Reader, List.getD, SnapRecord.isKeyframe]
      rw [findKeyframeBeforeAux]
      norm_num
    simp only [c4Reader] at hk hub
    simp [DumpReader.snapshotNearestTo, c4Reader, hub, hk]

/-- **C4 (amended).** Opening a dump whose first frame is a header always
succeeds regardless of what follows, and when the first indexed snapshot
frame is a delta, iterating `snapshots()` silently yields no entries —
`.ok []`, not a format error. -/
theorem dumpReader_delta_before_keyframe_silent :
    (∀ (t : Int) (command : List String) (rest : List DumpFrame),
      (mkDumpReader (⟨t, DumpContent.header command⟩ :: rest)).isOk = true) ∧
    (∀ (r : DumpReader) (dl : SnapshotDelta) (ts : Int)
        (rest : List IndexEntry),
      r.index = ⟨SnapRecord.delta dl, ts⟩ :: rest →
      r.snapshotsAll = .ok []) := by
  constructor
  · intro t command rest
    rfl
  · intro r dl ts rest h
    have hk : findKeyframeBeforeAux r.index 0 = -1 := by
      rw [findKeyframeBeforeAux]
      norm_num [h, List.getD, SnapRecord.isKeyframe]
      rw [findKeyframeBeforeAux]
      norm_num
    rw [h] at hk
    simp [DumpReader.snapshotsAll, hk, h]

theorem dumpReader_delta_before_keyframe_silent_witness :
    (mkDumpReader c4File).isOk = true ∧
    DumpReader.snapshotsAll c4Reader = .ok [] :=
  ⟨dumpReader_delta_before_keyframe_silent.1 0 ["sh"]
      [⟨5, DumpContent.delta {}⟩],
    dumpReader_delta_before_keyframe_silent.2 c4Reader {} 5 [] rfl⟩

theorem upperBoundAux_exit (entries : List IndexEntry) (target : Int)
    (lo hi : Int) (hnot : ¬ lo ≤ hi) (h0 : 0 ≤ lo) (hle : lo ≤ hi + 1)
    (hlen : hi < (entries.length : Int))
    (hinv1 : ∀ k : Int, 0 ≤ k → k < (entries.length : Int) → k < lo →
      tsAt entries k ≤ target)
    (hinv2 : ∀ k : Int, 0 ≤ k → k < (entries.length : Int) → hi < k →
      target < tsAt entries k) :
    -1 ≤ upperBoundAux entries target lo hi (lo - 1) ∧
    upperBoundAux entries target lo hi (lo - 1) < (entries.length : Int) ∧
    (∀ k : Int, 0 ≤ k → k < (entries.length : Int) →
      (tsAt entries k ≤ target ↔ k ≤ upperBoundAux entries target lo hi (lo - 1))) := by
  rw [upperBoundAux, dif_neg hnot]
  refine ⟨by omega, by omega, ?_⟩
  intro k hk0 hklen
  constructor
  · intro hts
    by_contra hgt
    exact absurd hts (not_le.mpr (hinv2 k hk0 hklen (by omega)))
  · intro hk
    exact hinv1 k hk0 hklen (by omega)

theorem upperBoundAux_spec (entries : List IndexEntry) (target : Int)
    (hsort : ∀ j k : Int, 0 ≤ j → j ≤ k → k < (entries.length : Int) →
      tsAt entries j ≤ tsAt entries k) :
    ∀ (fuel : Nat) (lo hi : Int), (hi + 1 - lo).toNat ≤ fuel →
      0 ≤ lo → lo ≤ hi + 1 → hi < (entries.length : Int) →
      (∀ k : Int, 0 ≤ k → k < (entries.length : Int) → k < lo →
        tsAt entries k ≤ target) →
      (∀ k : Int, 0 ≤ k → k < (entries.length : Int) → hi < k →
        target < tsAt entries k) →
      -1 ≤ upperBoundAux entries target lo hi (lo - 1) ∧
      upperBoundAux entries target lo hi (lo - 1) < (entries.length : Int) ∧
      (∀ k : Int, 0 ≤ k → k < (entries.length : Int) →
        (tsAt entries k ≤ target ↔
          k ≤ upperBoundAux entries target lo hi (lo - 1))) := by
  intro fuel
  induction fuel with
  | zero =>
    intro lo hi hfuel h0 hle hlen hinv1 hinv2
    exact upperBoundAux_exit entries target lo hi (by omega) h0 hle hlen
      hinv1 hinv2
  | succ fuel ih =>
    intro lo hi hfuel h0 hle hlen hinv1 hinv2
    by_cases hlh : lo ≤ hi
    · rw [upperBoundAux, dif_pos hlh]
      have hmid1 : lo ≤ (lo + hi) / 2 := by omega
      have hmid2 : (lo + hi) / 2 ≤ hi := by omega
      by_cases hts : tsAt entries ((lo + hi) / 2) ≤ target
      · rw [if_pos hts]
        have hstep := ih ((lo + hi) / 2 + 1) hi (by omega) (by omega) (by omega)
          hlen
          (fun k hk0 hklen hklt => by
            by_cases hkl : k < lo
            · exact hinv1 k hk0 hklen hkl
            · exact le_trans
                (hsort k ((lo + hi) / 2) hk0 (by omega) (by omega)) hts)
          hinv2
        have hrw : (lo + hi) / 2 + 1 - 1 = (lo + hi) / 2 := by omega
        rw [hrw] at hstep
        exact hstep
      · rw [if_neg hts]
        exact ih lo ((lo + hi) / 2 - 1) (by omega) h0 (by omega) (by omega)
          hinv1
          (fun k hk0 hklen hkgt => by
            by_cases hkh : hi < k
            · exact hinv2 k hk0 hklen hkh
            · push_neg at hts
              exact lt_of_lt_of_le hts
                (hsort ((lo + hi) / 2) k (by omega) (by omega) hklen))
    · exact upperBoundAux_exit entries target lo hi hlh h0 hle hlen
        hinv1 hinv2

theorem findKeyframeBeforeAux_spec (entries : List IndexEntry)
    (hkf : (entries.getD 0 default).record.isKeyframe = true) :
    ∀ (fuel : Nat) (i : Int), i.toNat ≤ fuel → 0 ≤ i →
      0 ≤ findKeyframeBeforeAux entries i ∧
      findKeyframeBeforeAux entries i ≤ i ∧
      (entries.getD (findKeyframeBeforeAux entries i).toNat
        default).record.isKeyframe = true := by
  intro fuel
  induction fuel with
  | zero =>
    intro i hf h0
    have hz : i = 0 := by omega
    subst hz
    rw [findKeyframeBeforeAux, dif_pos (le_refl 0)]
    rw [if_pos (by simpa using hkf)]
    exact ⟨le_refl 0, le_refl 0, by simpa using hkf⟩
  | succ fuel ih =>
    intro i hf h0
    rw [findKeyframeBeforeAux, dif_pos h0]
    by_cases hk : (entries.getD i.toNat default).record.isKeyframe = true
    · rw [if_pos hk]
      exact ⟨h0, le_refl i, hk⟩
    · rw [if_neg hk]
      have hipos : 0 < i := by
        by_contra hno
        have hz : i = 0 := by omega
        rw [hz] at hk
        simp only [Int.toNat_zero] at hk
        exact hk hkf
      obtain ⟨r0, r1, r2⟩ := ih (i - 1) (by omega) (by omega)
      exact ⟨r0, by omega, r2⟩

theorem reconstructAux_last (entries : List IndexEntry) (endIdx : Int)
    (current : Option Snapshot) (h0 : 0 ≤ endIdx)
    (hcur : current ≠ none ∨
      (entries.getD endIdx.toNat default).record.isKeyframe = true) :
    ∃ e : SnapshotEntry,
      reconstructAux entries endIdx endIdx endIdx current = .ok [e] ∧
      e.snapshot.timestamp =
        (entries.getD endIdx.toNat default).timestamp := by
  have hrec2 : ∀ c : Option Snapshot,
      reconstructAux entries endIdx endIdx (endIdx + 1) c = .ok [] := by
    intro c
    rw [reconstructAux, dif_neg (by omega)]
  rw [reconstructAux, dif_pos (le_refl endIdx)]
  cases hr : (entries.getD endIdx.toNat default).record with
  | keyframe p =>
    simp only [hr, hrec2, le_refl, if_pos]
    exact ⟨_, rfl, rfl⟩
  | delta dl =>
    cases hc : current with
    | none =>
      exfalso
      rcases hcur with hcur | hcur
      · exact hcur hc
      · rw [hr] at hcur
        simp [SnapRecord.isKeyframe] at hcur
    | some prev =>
      simp only [hr, hrec2, le_refl, if_pos]
      exact ⟨_, rfl, rfl⟩

theorem reconstructAux_single (entries : List IndexEntry) (endIdx : Int) :
    ∀ (fuel : Nat) (i : Int) (current : Option Snapshot),
      (endIdx - i).toNat ≤ fuel → 0 ≤ i → i ≤ endIdx →
      (current ≠ none ∨
        (entries.getD i.toNat default).record.isKeyframe = true) →
      ∃ e : SnapshotEntry,
        reconstructAux entries endIdx endIdx i current = .ok [e] ∧
        e.snapshot.timestamp =
          (entries.getD endIdx.toNat default).timestamp := by
  intro fuel
  induction fuel with
  | zero =>
    intro i current hf h0 hle hcur
    have hz : i = endIdx := by omega
    subst hz
    exact reconstructAux_last entries i current h0 hcur
  | succ fuel ih =>
    intro i current hf h0 hle hcur
    by_cases heq : i = endIdx
    · subst heq
      exact reconstructAux_last entries i current h0 hcur
    · have hlt : i < endIdx := by omega
      rw [reconstructAux, dif_pos hle]
      cases hr : (entries.getD i.toNat default).record with
      | keyframe p =>
        obtain ⟨e, he, hts⟩ := ih (i + 1)
          (some (p.toSnapshot (entries.getD i.toNat default).timestamp))
          (by omega) (by omega) (by omega) (Or.inl (by simp))
        simp only [hr, he]
        rw [if_neg (by omega)]
        exact ⟨e, rfl, hts⟩
      | delta dl =>
        cases hc : current with
        | none =>
          exfalso
          rcases hcur with hcur | hcur
          · exact hcur hc
          · rw [hr] at hcur
            simp [SnapRecord.isKeyframe] at hcur
        | some prev =>
          obtain ⟨e, he, hts⟩ := ih (i + 1)
            (some (applySnapshotDiff prev dl
              (entries.getD i.toNat default).timestamp))
            (by omega) (by omega) (by omega) (Or.inl (by simp))
          simp only [hr, he]
          rw [if_neg (by omega)]
          exact ⟨e, rfl, hts⟩

theorem pairwise_timestamps_mono (entries : List IndexEntry)
    (hsorted : (entries.map IndexEntry.timestamp).Pairwise (· ≤ ·)) :
    ∀ j k : Int, 0 ≤ j → j ≤ k → k < (entries.length : Int) →
      tsAt entries j ≤ tsAt entries k := by
  intro j k hj hjk hk
  rcases eq_or_lt_of_le hjk with heq | hlt
  · rw [heq]
  · have hjn : j.toNat < entries.length := by omega
    have hkn : k.toNat < entries.length := by omega
    have hjk2 : j.toNat < k.toNat := by omega
    have hp := List.pairwise_iff_getElem.mp hsorted j.toNat k.toNat
      (by simpa using hjn) (by simpa using hkn) hjk2
    simp only [List.getElem_map] at hp
    unfold tsAt
    rw [List.getD_eq_getElem?_getD, List.getD_eq_getElem?_getD,
      List.getElem?_eq_getElem hjn, List.getElem?_eq_getElem hkn]
    simpa using hp

/-- **C5 (amended).** Nearest-to correctness for well-formed dumps whose
snapshot-frame timestamps are non-decreasing (as the writer produces, since
snapshots are appended in capture order): `snapshotNearestTo t` returns
`none` when `t` is strictly before the first snapshot frame's timestamp,
and otherwise returns a reconstructed entry whose timestamp is the maximum
indexed timestamp `≤ t`. -/
theorem snapshotNearestTo_correct_sorted (r : DumpReader) (t : Int)
    (hne : r.index ≠ [])
    (hkf : (r.index.getD 0 default).record.isKeyframe = true)
    (hsorted : (r.index.map IndexEntry.timestamp).Pairwise (· ≤ ·)) :
    (t < (r.index.getD 0 default).timestamp →
      r.snapshotNearestTo t = .ok none) ∧
    ((r.index.getD 0 default).timestamp ≤ t →
      ∃ e : SnapshotEntry, r.snapshotNearestTo t = .ok (some e) ∧
        e.snapshot.timestamp ≤ t ∧
        (∃ k : Nat, k < r.index.length ∧
          (r.index.getD k default).timestamp = e.snapshot.timestamp) ∧
        (∀ k : Nat, k < r.index.length →
          (r.index.getD k default).timestamp ≤ t →
          (r.index.getD k default).timestamp ≤ e.snapshot.timestamp)) := by
  have hlen0 : ¬ r.index.length = 0 :=
    fun h => hne (List.length_eq_zero.mp h)
  have hlenpos : 0 < r.index.length := Nat.pos_of_ne_zero hlen0
  have hsort := pairwise_timestamps_mono r.index hsorted
  have hueq : r.upperBound t =
      upperBoundAux r.index t 0 ((r.index.length : Int) - 1) (-1) := rfl
  have h01 : ((0 : Int) - 1) = -1 := by norm_num
  have hub := upperBoundAux_spec r.index t hsort
    ((r.index.length : Int) + 1).toNat 0 ((r.index.length : Int) - 1)
    (by omega) (by omega) (by omega) (by omega)
    (fun k hk0 hklen hneg => absurd hneg (by omega))
    (fun k hk0 hklen hgt => absurd hklen (by omega))
  rw [h01, ← hueq] at hub
  obtain ⟨hub1, hub2, hubchar⟩ := hub
  constructor
  · intro hlt
    have h0 : ¬ tsAt r.index 0 ≤ t := not_le.mpr hlt
    have hu0 : r.upperBound t < 0 := by
      by_contra hge
      push_neg at hge
      exact h0 ((hubchar 0 (le_refl 0) (by omega)).mpr (by omega))
    simp only [DumpReader.snapshotNearestTo]
    rw [if_neg hlen0, if_pos hu0]
  · intro hge
    have hu0 : 0 ≤ r.upperBound t :=
      (hubchar 0 (le_refl 0) (by omega)).mp hge
    obtain ⟨hkf0, hkfle, hkfkf⟩ := findKeyframeBeforeAux_spec r.index hkf
      (r.upperBound t).toNat (r.upperBound t) (le_refl _) hu0
    obtain ⟨e, he, hts⟩ := reconstructAux_single r.index (r.upperBound t)
      (r.upperBound t - findKeyframeBeforeAux r.index (r.upperBound t)).toNat
      (findKeyframeBeforeAux r.index (r.upperBound t)) none (le_refl _)
      hkf0 hkfle (Or.inr hkfkf)
    refine ⟨e, ?_, ?_, ?_, ?_⟩
    · simp only [DumpReader.snapshotNearestTo]
      rw [if_neg hlen0, if_neg (not_lt.mpr hu0), if_neg (not_lt.mpr hkf0),
        he]
      rfl
    · rw [hts]
      exact (hubchar (r.upperBound t) hu0 hub2).mpr (le_refl _)
    · exact ⟨(r.upperBound t).toNat, by omega, by rw [hts]⟩
    · intro k hk hkt
      have hku : (k : Int) ≤ r.upperBound t :=
        (hubchar k (by omega) (by omega)).mp hkt
      rw [hts]
      exact hsort k (r.upperBound t) (by omega) hku hub2

/-- A minimal keyframe payload for constructing dump test files. -/
def c5Payload : KeyframePayload :=
  { lines := [], cursor := { x := 0, y := 0, visible := true }, cols := 80
    rows := 24, alternate := false, linesOffset := some 0 }

/-- A dump whose first snapshot frame is a keyframe (well-formed in the
claim's sense) but whose timestamps are out of order: keyframe at 10,
then a delta at 5. -/
def c5BadFile : List DumpFrame :=
  [⟨0, DumpContent.header ["sh"]⟩, ⟨10, DumpContent.keyframe c5Payload⟩,
    ⟨5, DumpContent.delta {}⟩]

/-- The reader state built from `c5BadFile`. -/
def c5BadReader : DumpReader :=
  { header := ["sh"]
    index := [⟨SnapRecord.keyframe c5Payload, 10⟩, ⟨SnapRecord.delta {}, 5⟩] }

/-- **C5 counterexample.** On a dump whose first snapshot frame is a
keyframe (timestamp 10) followed by a delta frame with the *smaller*
timestamp 5, `snapshotNearestTo 12` returns the entry with timestamp 5,
not the entry with the maximum timestamp `≤ 12` (which is 10): the
binary search assumes timestamps are sorted, which the claim's
"well-formed" premise (first frame is a keyframe) does not guarantee. -/
theorem snapshotNearestTo_counterexample :
    mkDumpReader c5BadFile = .ok c5BadReader ∧
    (c5BadReader.index.getD 0 default).record.isKeyframe = true ∧
    (c5BadReader.index.getD 0 default).timestamp = 10 ∧
    (c5BadReader.index.getD 1 default).timestamp = 5 ∧
    ((10 : Int) ≤ 12 ∧ (5 : Int) ≠ 10) ∧
    (DumpReader.snapshotNearestTo c5BadReader 12).map
      (Option.map fun e => e.snapshot.timestamp) = .ok (some 5) := by
  refine ⟨rfl, by decide, by decide, by decide, by norm_num, ?_⟩
  simp [DumpReader.snapshotNearestTo, DumpReader.upperBound, upperBoundAux,
    findKeyframeBeforeAux, reconstructAux, c5BadReader, tsAt, List.getD,
    SnapRecord.isKeyframe, KeyframePayload.toSnapshot, applySnapshotDiff,
    applyLinePatches, summarizeDelta, c5Payload]
  rfl

/-- A well-formed dump reader with sorted timestamps: keyframe at 10,
delta at 20. -/
def c5GoodReader : DumpReader :=
  { header := ["sh"]
    index := [⟨SnapRecord.keyframe c5Payload, 10⟩, ⟨SnapRecord.delta {}, 20⟩] }

theorem snapshotNearestTo_correct_sorted_witness :
    ((15 : Int) < (c5GoodReader.index.getD 0 default).timestamp →
      c5GoodReader.snapshotNearestTo 15 = .ok none) ∧
    ((c5GoodReader.index.getD 0 default).timestamp ≤ 15 →
      ∃ e : SnapshotEntry,
        c5GoodReader.snapshotNearestTo 15 = .ok (some e) ∧
        e.snapshot.timestamp ≤ 15 ∧
        (∃ k : Nat, k < c5GoodReader.index.length ∧
          (c5GoodReader.index.getD k default).timestamp =
            e.snapshot.timestamp) ∧
        (∀ k : Nat, k < c5GoodReader.index.length →
          (c5GoodReader.index.getD k default).timestamp ≤ 15 →
          (c5GoodReader.index.getD k default).timestamp ≤
            e.snapshot.timestamp)) :=
  snapshotNearestTo_correct_sorted c5GoodReader 15 (by decide) (by decide)
    (by decide)

/-- Style of a message event (`"text" | "block"`). -/
inductive MessageStyle
  | text
  | block
deriving DecidableEq, Repr

/-- A labelled option of a question or permission prompt. -/
structure ChoiceOption where
  label : String
  description : Option String
deriving DecidableEq, Repr

/-- The `SceneEvent` union from `scene/interface.ts`. The optional `echo`
flag (`true | undefined`) is modelled as `Bool`. -/
inductive SceneEvent
  | sceneStateChanged (state : Option String)
  | indicatorChanged (active : Bool) (text : String)
  | messageCreated (style : MessageStyle) (content : List RichText)
      (echo : Bool)
  | lastMessageUpdated (style : MessageStyle)
      (content : Option (List RichText)) (echo : Bool)
  | inputChanged (active : Bool) (text : String)
  | questionCreated (header : Option String) (question : String)
      (options : List ChoiceOption) (selected : Option Nat)
  | lastQuestionUpdated (header : Option String) (question : String)
      (options : List ChoiceOption) (selected : Option Nat)
  | permissionRequired (command : String) (description : Option String)
      (options : List ChoiceOption) (selected : Option Nat)
deriving DecidableEq, Repr

/-- The `SceneInput` union from `scene/interface.ts`: sanitized text or a
0-based selection index. -/
inductive SceneInput
  | text (content : String)
  | select (index : Nat)
deriving DecidableEq, Repr

/-- `SceneContinuation` from `scene/interface.ts`. -/
structure SceneContinuation where
  events : List SceneEvent
  firm : Bool
deriving DecidableEq, Repr

/-- The `Scene` interface from `scene/interface.ts`. A scene's methods are
modelled as pure functions of the snapshot: within one composite `process`
call each method is invoked at most once, so internal state updates of
child scenes are not observable by the orchestration logic under study.
`continue` is a Lean keyword, hence the field name `cont`. -/
structure Scene where
  priority : Int
  state : Option String
  detect : Snapshot → Option (List SceneEvent)
  cont : Snapshot → Option SceneContinuation
  encodeInput : Option (SceneInput → Option String)

instance : Inhabited Scene :=
  ⟨⟨0, none, fun _ => none, fun _ => none, none⟩⟩

/-- The fields of `CompositeScene` from `scene/builtin/composite.ts`. The
active scene is tracked by its position in `scenes` (the source compares
object identity; positions are unique). -/
structure CompositeScene where
  priority : Int
  scenes : List Scene
  activeScene : Option Nat

/-- The `CompositeScene` constructor: child scenes sorted by ascending
priority (stable, like `Array.prototype.sort`), no active scene. -/
def mkCompositeScene (scenes : List Scene) (priority : Int) : CompositeScene :=
  { priority := priority
    scenes := scenes.mergeSort fun a b => decide (a.priority ≤ b.priority)
    activeScene := none }

/-- `CompositeScene.state`: the active child's `state`, else null. -/
def CompositeScene.state (c : CompositeScene) : Option String :=
  c.activeScene.bind fun i => (c.scenes.getD i default).state

/-- A record of one `detect`/`continue` call made on a child scene (by its
position), used to observe which scenes the composite consults and in
which order. -/
inductive SceneCall
  | detectCall (i : Nat)
  | continueCall (i : Nat)
deriving DecidableEq, Repr

/-- The clean-detect loop of `CompositeScene.detect`, instrumented with the
call log; `i` is the position of the head of `l` in the full scene list. -/
def detectScan (snapshot : Snapshot) :
    List Scene → Nat → Option (List SceneEvent × Nat) × List SceneCall
  | [], _ => (none, [])
  | sc :: rest, i =>
    match sc.detect snapshot with
    | some evs => (some (evs, i), [SceneCall.detectCall i])
    | none =>
      let r := detectScan snapshot rest (i + 1)
      (r.1, SceneCall.detectCall i :: r.2)

/-- The preemption loop of `CompositeScene.continue`: like `detectScan` but
skipping the active scene (`if (s === this.activeScene) continue`). -/
def preemptScan (snapshot : Snapshot) (skip : Nat) :
    List Scene → Nat → Option (List SceneEvent × Nat) × List SceneCall
  | [], _ => (none, [])
  | sc :: rest, i =>
    if i = skip then preemptScan snapshot skip rest (i + 1)
    else
      match sc.detect snapshot with
      | some evs => (some (evs, i), [SceneCall.detectCall i])
      | none =>
        let r := preemptScan snapshot skip rest (i + 1)
        (r.1, SceneCall.detectCall i :: r.2)

/-- `CompositeScene.detect`: first child whose `detect` matches becomes
active. Returns the result, the updated composite, and the call log. -/
def CompositeScene.detect (c : CompositeScene) (snapshot : Snapshot) :
    Option (List SceneEvent) × CompositeScene × List SceneCall :=
  match detectScan snapshot c.scenes 0 with
  | (some (evs, i), calls) =>
      (some evs, { c with activeScene := some i }, calls)
  | (none, calls) => (none, c, calls)

/-- `CompositeScene.continue`: continue the active child; on `null` clear
it; on a firm result return directly; on a tentative result run the
preemption scan. -/
def CompositeScene.cont (c : CompositeScene) (snapshot : Snapshot) :
    Option SceneContinuation × CompositeScene × List SceneCall :=
  match c.activeScene with
  | none => (none, c, [])
  | some i =>
    match (c.scenes.getD i default).cont snapshot with
    | none =>
        (none, { c with activeScene := none }, [SceneCall.continueCall i])
    | some result =>
      if result.firm then (some result, c, [SceneCall.continueCall i])
      else
        match preemptScan snapshot i c.scenes 0 with
        | (some (evs, j), calls) =>
            (some { events := evs, firm := true },
              { c with activeScene := some j },
              SceneCall.continueCall i :: calls)
        | (none, calls) =>
            (some result, c, SceneCall.continueCall i :: calls)

/-- `CompositeScene.process`: continuation plus preemption, then clean
detection (`{ events: detected ?? [], firm: detected !== null }`). -/
def CompositeScene.process (c : CompositeScene) (snapshot : Snapshot) :
    SceneContinuation × CompositeScene × List SceneCall :=
  match c.cont snapshot with
  | (some result, c1, calls1) => (result, c1, calls1)
  | (none, c1, calls1) =>
    match c1.detect snapshot with
    | (some evs, c2, calls2) =>
        ({ events := evs, firm := true }, c2, calls1 ++ calls2)
    | (none, c2, calls2) =>
        ({ events := [], firm := false }, c2, calls1 ++ calls2)

theorem detectScan_found (snapshot : Snapshot) :
    ∀ (l : List Scene) (j i0 : Nat) (evs : List SceneEvent),
      j < l.length →
      (∀ k, k < j → (l.getD k default).detect snapshot = none) →
      (l.getD j default).detect snapshot = some evs →
      detectScan snapshot l i0 =
        (some (evs, i0 + j),
          (List.range' i0 (j + 1)).map SceneCall.detectCall) := by
  intro l
  induction l with
  | nil =>
    intro j i0 evs hj
    simp at hj
  | cons sc rest ih =>
    intro j i0 evs hj hnone hfound
    cases j with
    | zero =>
      rw [List.getD_cons_zero] at hfound
      simp [detectScan, hfound, List.range'_succ]
    | succ j =>
      have h0 : sc.detect snapshot = none := by
        have h := hnone 0 (Nat.succ_pos j)
        rwa [List.getD_cons_zero] at h
      rw [List.getD_cons_succ] at hfound
      have hrec := ih j (i0 + 1) evs (by simpa using hj)
        (fun k hk => by
          have h := hnone (k + 1) (by omega)
          rwa [List.getD_cons_succ] at h)
        hfound
      simp only [detectScan, h0, hrec]
      have hadd : i0 + 1 + j = i0 + (j + 1) := by omega
      rw [hadd]
      simp [List.range'_succ]

theorem detectScan_none (snapshot : Snapshot) :
    ∀ (l : List Scene) (i0 : Nat),
      (∀ k, k < l.length → (l.getD k default).detect snapshot = none) →
      detectScan snapshot l i0 =
        (none, (List.range' i0 l.length).map SceneCall.detectCall) := by
  intro l
  induction l with
  | nil =>
    intro i0 _
    simp [detectScan]
  | cons sc rest ih =>
    intro i0 hnone
    have h0 : sc.detect snapshot = none := by
      have h := hnone 0 (by simp)
      rwa [List.getD_cons_zero] at h
    have hrec := ih (i0 + 1) (fun k hk => by
      have h := hnone (k + 1) (by simp only [List.length_cons]; omega)
      rwa [List.getD_cons_succ] at h)
    simp only [detectScan, h0, hrec, List.length_cons]
    rw [List.range'_succ, List.map_cons]

theorem preemptScan_found (snapshot : Snapshot) (skip : Nat) :
    ∀ (l : List Scene) (j i0 : Nat) (evs : List SceneEvent),
      j < l.length →
      (∀ k, k < j → i0 + k ≠ skip →
        (l.getD k default).detect snapshot = none) →
      i0 + j ≠ skip →
      (l.getD j default).detect snapshot = some evs →
      preemptScan snapshot skip l i0 =
        (some (evs, i0 + j),
          ((List.range' i0 (j + 1)).filter (fun k => k != skip)).map
            SceneCall.detectCall) := by
  intro l
  induction l with
  | nil =>
    intro j i0 evs hj
    simp at hj
  | cons sc rest ih =>
    intro j i0 evs hj hnone hne hfound
    by_cases hi : i0 = skip
    · cases j with
      | zero => omega
      | succ j =>
        rw [List.getD_cons_succ] at hfound
        have hrec := ih j (i0 + 1) evs (by simpa using hj)
          (fun k hk hks => by
            have h := hnone (k + 1) (by omega) (by omega)
            rwa [List.getD_cons_succ] at h)
          (by omega) hfound
        simp only [preemptScan, if_pos hi, hrec]
        have hadd : i0 + 1 + j = i0 + (j + 1) := by omega
        rw [hadd]
        simp [List.range'_succ, List.filter_cons, hi]
    · cases j with
      | zero =>
        rw [List.getD_cons_zero] at hfound
        simp only [preemptScan, if_neg hi, hfound]
        rw [List.range'_succ, List.filter_cons]
        simp [hi]
      | succ j =>
        have h0 : sc.detect snapshot = none := by
          have h := hnone 0 (by omega) (by omega)
          rwa [List.getD_cons_zero] at h
        rw [List.getD_cons_succ] at hfound
        have hrec := ih j (i0 + 1) evs (by simpa using hj)
          (fun k hk hks => by
            have h := hnone (k + 1) (by omega) (by omega)
            rwa [List.getD_cons_succ] at h)
          (by omega) hfound
        simp only [preemptScan, if_neg hi, h0, hrec]
        have hadd : i0 + 1 + j = i0 + (j + 1) := by omega
        rw [hadd]
        simp [List.range'_succ, List.filter_cons, hi]

theorem preemptScan_none (snapshot : Snapshot) (skip : Nat) :
    ∀ (l : List Scene) (i0 : Nat),
      (∀ k, k < l.length → i0 + k ≠ skip →
        (l.getD k default).detect snapshot = none) →
      preemptScan snapshot skip l i0 =
        (none,
          ((List.range' i0 l.length).filter (fun k => k != skip)).map
            SceneCall.detectCall) := by
  intro l
  induction l with
  | nil =>
    intro i0 _
    simp [preemptScan]
  | cons sc rest ih =>
    intro i0 hnone
    have hrec := ih (i0 + 1) (fun k hk hks => by
      have h := hnone (k + 1) (by simp only [List.length_cons]; omega)
        (by omega)
      rwa [List.getD_cons_succ] at h)
    by_cases hi : i0 = skip
    · simp only [preemptScan, if_pos hi, hrec, List.length_cons]
      rw [List.range'_succ, List.filter_cons]
      simp [hi]
    · have h0 : sc.detect snapshot = none := by
        have h := hnone 0 (by simp) (by omega)
        rwa [List.getD_cons_zero] at h
      simp only [preemptScan, if_neg hi, h0, hrec, List.length_cons]
      rw [List.range'_succ, List.filter_cons]
      simp [hi]

/-- **C6.** Composite continuation/preemption discipline. The constructor
sorts children by ascending priority (stably), so scan order is priority
order; then, for a composite with active scene `i` and any snapshot:
a firm continuation is returned directly with no `detect` call; a
tentative continuation triggers a preemption scan over every *other*
scene in order, the first `detect` hit replacing the active scene and
returning firm; with no hit the tentative result is returned unchanged;
a `null` continuation clears the active scene and runs a clean detect
scan over *all* scenes within the same call. -/
theorem compositeScene_process_discipline :
    (∀ (scenes : List Scene) (p : Int),
      (mkCompositeScene scenes p).scenes.Pairwise
        (fun a b => a.priority ≤ b.priority) ∧
      (mkCompositeScene scenes p).scenes.Perm scenes) ∧
    ∀ (c : CompositeScene) (snapshot : Snapshot) (i : Nat),
      c.activeScene = some i → i < c.scenes.length →
      (∀ result, (c.scenes.getD i default).cont snapshot = some result →
        result.firm = true →
        c.process snapshot = (result, c, [SceneCall.continueCall i])) ∧
      (∀ result j evs,
        (c.scenes.getD i default).cont snapshot = some result →
        result.firm = false → j < c.scenes.length → j ≠ i →
        (c.scenes.getD j default).detect snapshot = some evs →
        (∀ k, k < j → k ≠ i →
          (c.scenes.getD k default).detect snapshot = none) →
        c.process snapshot =
          ({ events := evs, firm := true },
            { c with activeScene := some j },
            SceneCall.continueCall i ::
              ((List.range (j + 1)).filter (fun k => k != i)).map
                SceneCall.detectCall)) ∧
      (∀ result, (c.scenes.getD i default).cont snapshot = some result →
        result.firm = false →
        (∀ k, k < c.scenes.length → k ≠ i →
          (c.scenes.getD k default).detect snapshot = none) →
        c.process snapshot =
          (result, c,
            SceneCall.continueCall i ::
              ((List.range c.scenes.length).filter (fun k => k != i)).map
                SceneCall.detectCall)) ∧
      ((c.scenes.getD i default).cont snapshot = none →
        (∀ j evs, j < c.scenes.length →
          (c.scenes.getD j default).detect snapshot = some evs →
          (∀ k, k < j →
            (c.scenes.getD k default).detect snapshot = none) →
          c.process snapshot =
            ({ events := evs, firm := true },
              { c with activeScene := some j },
              SceneCall.continueCall i ::
                (List.range (j + 1)).map SceneCall.detectCall)) ∧
        ((∀ k, k < c.scenes.length →
            (c.scenes.getD k default).detect snapshot = none) →
          c.process snapshot =
            ({ events := [], firm := false },
              { c with activeScene := none },
              SceneCall.continueCall i ::
                (List.range c.scenes.length).map SceneCall.detectCall))) := by
  constructor
  · intro scenes p
    constructor
    · have hs := @List.sorted_mergeSort Scene
        (fun a b : Scene => decide (a.priority ≤ b.priority))
        (fun a b c hab hbc => by
          simp only [decide_eq_true_eq] at hab hbc ⊢
          omega)
        (fun a b => by
          simp only [Bool.or_eq_true, decide_eq_true_eq]
          omega)
        scenes
      exact hs.imp (by simp)
    · exact List.mergeSort_perm scenes _
  · intro c snapshot i hact hlen
    refine ⟨?_, ?_, ?_, ?_⟩
    · intro result hcont hfirm
      simp only [List.getD_eq_getElem?_getD] at hcont
      simp [CompositeScene.process, CompositeScene.cont, hact, hcont, hfirm]
    · intro result j evs hcont hfirm hj hji hdet hnone
      have hscan := preemptScan_found snapshot i c.scenes j 0 evs hj
        (fun k hk hks => hnone k hk (by omega)) (by omega) hdet
      simp only [Nat.zero_add] at hscan
      simp only [List.getD_eq_getElem?_getD] at hcont
      simp [CompositeScene.process, CompositeScene.cont, hact, hcont, hfirm,
        hscan, List.range_eq_range']
    · intro result hcont hfirm hnone
      have hscan := preemptScan_none snapshot i c.scenes 0
        (fun k hk hks => hnone k hk (by omega))
      simp only [List.getD_eq_getElem?_getD] at hcont
      simp [CompositeScene.process, CompositeScene.cont, hact, hcont, hfirm,
        hscan, List.range_eq_range']
    · intro hcont
      constructor
      · intro j evs hj hdet hnone
        have hscan := detectScan_found snapshot c.scenes j 0 evs hj hnone hdet
        simp only [Nat.zero_add] at hscan
        simp only [List.getD_eq_getElem?_getD] at hcont
        simp [CompositeScene.process, CompositeScene.cont,
          CompositeScene.detect, hact, hcont, hscan, List.range_eq_range']
      · intro hnone
        have hscan := detectScan_none snapshot c.scenes 0 hnone
        simp only [List.getD_eq_getElem?_getD] at hcont
        simp [CompositeScene.process, CompositeScene.cont,
          CompositeScene.detect, hact, hcont, hscan, List.range_eq_range']

/-- A child scene whose continuation is always firm. -/
def sceneFirm : Scene :=
  { priority := 0, state := some "firm"
    detect := fun _ => some []
    cont := fun _ =>
      some { events := [SceneEvent.inputChanged true ""], firm := true }
    encodeInput := none }

/-- A child scene that never matches. -/
def sceneIdle : Scene :=
  { priority := 10, state := none
    detect := fun _ => none
    cont := fun _ => none
    encodeInput := none }

/-- A composite with `sceneFirm` active. -/
def comp6 : CompositeScene :=
  { priority := 0, scenes := [sceneFirm, sceneIdle], activeScene := some 0 }

theorem compositeScene_process_discipline_witness :
    comp6.process sampleSnapA =
      ({ events := [SceneEvent.inputChanged true ""], firm := true }, comp6,
        [SceneCall.continueCall 0]) :=
  (compositeScene_process_discipline.2 comp6 sampleSnapA 0 rfl
      (by decide)).1
    { events := [SceneEvent.inputChanged true ""], firm := true } rfl rfl

/-- The fields of `Gateway` from `gateway.ts` used by `update` (channels
are represented by the broadcast frame `update` returns: the same
`{snapshot, events}` value is delivered to every channel). -/
structure Gateway where
  composite : Option CompositeScene
  lastSnapshot : Option Snapshot

/-- `Gateway.update` from `gateway.ts`: remember the previous composite
state, process the snapshot (no-op without a composite), push a
`scene_state_changed` event when the state changed, and broadcast
`{snapshot, events}`. Returns the updated gateway and the broadcast
frame. -/
def Gateway.update (gw : Gateway) (snapshot : Snapshot) :
    Gateway × Snapshot × List SceneEvent :=
  let prevState := match gw.composite with | some c => c.state | none => none
  match gw.composite with
  | none =>
      let newState : Option String := none
      let events : List SceneEvent := []
      let events :=
        if newState ≠ prevState then
          events ++ [SceneEvent.sceneStateChanged newState]
        else events
      ({ composite := none, lastSnapshot := some snapshot }, snapshot, events)
  | some c =>
      let pr := c.process snapshot
      let newState := pr.2.1.state
      let events := pr.1.events
      let events :=
        if newState ≠ prevState then
          events ++ [SceneEvent.sceneStateChanged newState]
        else events
      ({ composite := some pr.2.1, lastSnapshot := some snapshot },
        snapshot, events)

/-- **C8.** Gateway `scene_state_changed` emission: on every
`update(snapshot)` with a composite, the broadcast event list is exactly
the composite's events for that snapshot followed by one
`scene_state_changed` carrying the new state iff the composite's state
changed, all within the same broadcast frame (which also carries the
snapshot); with no composite, no events are broadcast. -/
theorem gateway_update_scene_state_changed :
    (∀ (gw : Gateway) (snapshot : Snapshot) (c : CompositeScene),
      gw.composite = some c →
      (gw.update snapshot).2.1 = snapshot ∧
      (gw.update snapshot).1.composite = some (c.process snapshot).2.1 ∧
      ∃ tail,
        (gw.update snapshot).2.2 = (c.process snapshot).1.events ++ tail ∧
        ((c.process snapshot).2.1.state ≠ c.state →
          tail =
            [SceneEvent.sceneStateChanged (c.process snapshot).2.1.state]) ∧
        ((c.process snapshot).2.1.state = c.state → tail = [])) ∧
    (∀ (gw : Gateway) (snapshot : Snapshot), gw.composite = none →
      (gw.update snapshot).2.2 = []) := by
  constructor
  · intro gw snapshot c hc
    refine ⟨by simp [Gateway.update, hc], by simp [Gateway.update, hc], ?_⟩
    refine ⟨if (c.process snapshot).2.1.state ≠ c.state then
        [SceneEvent.sceneStateChanged (c.process snapshot).2.1.state]
      else [], ?_, ?_, ?_⟩
    · by_cases h : (c.process snapshot).2.1.state = c.state
      · simp [Gateway.update, hc, h]
      · simp [Gateway.update, hc, h]
    · intro h
      rw [if_pos h]
    · intro h
      simp [h]
  · intro gw snapshot hc
    simp [Gateway.update, hc]

theorem gateway_update_scene_state_changed_witness :
    (Gateway.update ⟨some comp6, none⟩ sampleSnapA).2.1 = sampleSnapA ∧
    (Gateway.update ⟨some comp6, none⟩ sampleSnapA).1.composite =
      some (comp6.process sampleSnapA).2.1 ∧
    ∃ tail,
      (Gateway.update ⟨some comp6, none⟩ sampleSnapA).2.2 =
        (comp6.process sampleSnapA).1.events ++ tail ∧
      ((comp6.process sampleSnapA).2.1.state ≠ comp6.state →
        tail =
          [SceneEvent.sceneStateChanged
            (comp6.process sampleSnapA).2.1.state]) ∧
      ((comp6.process sampleSnapA).2.1.state = comp6.state → tail = []) :=
  gateway_update_scene_state_changed.1 ⟨some comp6, none⟩ sampleSnapA comp6
    rfl

/-- `stripControlChars` from `scene/interface.ts`: remove exactly the
characters matched by the regex `[\x00-\x08\x0b\x0c\x0e-\x1f\x7f]`
(note: the class skips 0x09, 0x0a and also 0x0d). -/
def stripControlChars (s : String) : String :=
  String.mk (s.data.filter fun ch =>
    !(decide (ch.toNat ≤ 0x08) || decide (ch.toNat = 0x0b) ||
      decide (ch.toNat = 0x0c) ||
      (decide (0x0e ≤ ch.toNat) && decide (ch.toNat ≤ 0x1f)) ||
      decide (ch.toNat = 0x7f)))

/-- `parseSceneInput` restricted to a well-formed `{type: "text", content}`
object: the valibot `TextSceneInputSchema` accepts any string content and
applies the `stripControlChars` transform, so parsing always succeeds. -/
def parseTextSceneInput (content : String) : Option SceneInput :=
  some (SceneInput.text (stripControlChars content))

/-- **C7 (code evaluated at the failing input).** The claim (and the
function's own doc comment) say CR (0x0D) is stripped; the regex
`[\x00-\x08\x0b\x0c\x0e-\x1f\x7f]` skips 0x0D, so `"a\rb"` parses to
`"a\rb"`, not `"ab"`. Other C0 controls are stripped and tab/newline are
preserved exactly as the tests require. -/
theorem stripControlChars_keeps_carriage_return :
    parseTextSceneInput "a\rb" = some (SceneInput.text "a\rb") ∧
    stripControlChars "a\rb" ≠ "ab" ∧
    stripControlChars "a\x03b\x1bc" = "abc" ∧
    stripControlChars "a\tb\nc" = "a\tb\nc" ∧
    stripControlChars "a\x7fb" = "ab" := by
  refine ⟨by decide, by decide, by decide, by decide, by decide⟩

/-- The parts of `VirtualTerminal` state relevant to the dispose/callback
ordering in `vt/index.ts`, plus a delivery log. The emulator collaborator
is abstracted to its current content `emu`: `emulator.write` updates it,
`takeSnapshot` reads it, and `emulator.flush()` resolves. Each delivery
records the value of the `disposed` flag at the moment `onChange` is
invoked. -/
structure VTState where
  disposed : Bool
  captureNeeded : Bool
  /-- `runningCapture != null`; at every action boundary the running
  capture coroutine is parked at its sole `await` (`emulator.flush()`). -/
  inFlight : Bool
  previousSnapshot : Option Snapshot
  /-- A flush-scheduler timer is pending. -/
  schedulerActive : Bool
  emu : Snapshot
  deliveries : List (Bool × Snapshot)
deriving DecidableEq, Repr

/-- Virtual terminal state right after construction. -/
def initVTState (s0 : Snapshot) : VTState :=
  { disposed := false, captureNeeded := false, inFlight := false
    previousSnapshot := none, schedulerActive := false, emu := s0
    deliveries := [] }

/-- The atomic execution blocks of the virtual terminal, delimited by the
single suspension point of `runCapture` (`await this.emulator.flush()`).
In the single-threaded cooperative runtime each block runs without
interleaving. -/
inductive VTAction
  /-- `write(data)`: feed the emulator (content becomes `s`) and
  `scheduler.notify()`. No-op after dispose. -/
  | writeData (s : Snapshot)
  /-- A scheduler timer fires: `onFlush` sets `captureNeeded` and, if no
  capture runs, starts `runCapture`, which clears `captureNeeded` and
  suspends at the `await`. Cancelled timers (after dispose) never fire. -/
  | schedulerFire
  /-- `dispose()`: set the flag, dispose the scheduler (cancelling its
  timers) and the emulator. -/
  | disposeCall
  /-- The awaited `emulator.flush()` resolves: take a snapshot, dedup
  against the previous one, invoke `onChange` on inequality, and loop
  (`while (this.captureNeeded)`). -/
  | captureResume

/-- One atomic step of `vt/index.ts`; disabled actions leave the state
unchanged. Note `runCapture` checks only `captureNeeded`, never
`disposed`, before delivering. -/
def vtStep (st : VTState) : VTAction → VTState
  | .writeData s =>
      if st.disposed then st
      else { st with emu := s, schedulerActive := true }
  | .schedulerFire =>
      if st.schedulerActive ∧ ¬ st.disposed = true then
        if st.inFlight then
          { st with schedulerActive := false, captureNeeded := true }
        else
          { st with schedulerActive := false, captureNeeded := false
                    inFlight := true }
      else st
  | .disposeCall => { st with disposed := true, schedulerActive := false }
  | .captureResume =>
      if st.inFlight then
        let snap := st.emu
        let delivered :=
          match st.previousSnapshot with
          | some prev => ! snapshotsEqual prev snap
          | none => true
        let st1 :=
          { st with
              previousSnapshot := some snap
              deliveries :=
                if delivered then st.deliveries ++ [(st.disposed, snap)]
                else st.deliveries }
        if st1.captureNeeded then { st1 with captureNeeded := false }
        else { st1 with inFlight := false }
      else st

/-- Run the virtual terminal from construction through a sequence of
atomic blocks. -/
def vtRun (s0 : Snapshot) (acts : List VTAction) : VTState :=
  acts.foldl vtStep (initVTState s0)

/-- **C9 counterexample.** A capture in flight when `dispose()` is called
runs to completion and delivers its `onChange` callback *without checking
the disposed flag*: in the trace write → scheduler fire (capture suspends
at `await emulator.flush()`) → dispose → capture resumes, the delivery
happens with `disposed = true`, refuting the claim that no `onChange`
delivery happens after `dispose` returns. -/
theorem virtualTerminal_dispose_counterexample :
    (vtRun sampleSnapA [VTAction.writeData sampleSnapB,
      VTAction.schedulerFire, VTAction.disposeCall,
      VTAction.captureResume]).deliveries = [(true, sampleSnapB)] ∧
    ¬ (∀ (s0 : Snapshot) (acts : List VTAction),
        ∀ d ∈ (vtRun s0 acts).deliveries, d.1 = false) := by
  have hrun : (vtRun sampleSnapA [VTAction.writeData sampleSnapB,
      VTAction.schedulerFire, VTAction.disposeCall,
      VTAction.captureResume]).deliveries = [(true, sampleSnapB)] := by
    decide
  refine ⟨hrun, fun h => ?_⟩
  have hd := h sampleSnapA [VTAction.writeData sampleSnapB,
    VTAction.schedulerFire, VTAction.disposeCall, VTAction.captureResume]
    (true, sampleSnapB) (by rw [hrun]; exact List.mem_singleton.mpr rfl)
  simp at hd

/-- **C9 (amended).** After `dispose()`, `write` is a no-op and the
scheduler's timers are cancelled, so no *new* capture can begin; if no
capture was in flight when `dispose` was called, no `onChange` delivery
ever happens afterwards; but a capture that was in flight runs to
completion and delivers its callback without consulting the disposed
flag, so a delivery after `dispose` returns is possible. -/
theorem virtualTerminal_dispose_behavior :
    (∀ (st : VTState) (s : Snapshot), st.disposed = true →
      vtStep st (VTAction.writeData s) = st) ∧
    (∀ st : VTState, st.disposed = true →
      vtStep st VTAction.schedulerFire = st) ∧
    (∀ (st : VTState) (acts : List VTAction),
      st.disposed = true → st.inFlight = false →
      (acts.foldl vtStep st).deliveries = st.deliveries) ∧
    (∃ (s0 : Snapshot) (acts : List VTAction) (d : Bool × Snapshot),
      d ∈ (vtRun s0 acts).deliveries ∧ d.1 = true) := by
  refine ⟨?_, ?_, ?_, ?_⟩
  · intro st s h
    simp [vtStep, h]
  · intro st h
    simp [vtStep, h]
  · intro st acts hdis hinf
    induction acts generalizing st with
    | nil => rfl
    | cons a acts ih =>
      have h1 : (vtStep st a).disposed = true ∧
          (vtStep st a).inFlight = false ∧
          (vtStep st a).deliveries = st.deliveries := by
        cases a <;> simp [vtStep, hdis, hinf]
      rw [List.foldl_cons, ih (vtStep st a) h1.1 h1.2.1]
      exact h1.2.2
  · exact ⟨sampleSnapA, [VTAction.writeData sampleSnapB,
      VTAction.schedulerFire, VTAction.disposeCall,
      VTAction.captureResume], (true, sampleSnapB), by decide, rfl⟩

/-- A virtual terminal state that has been disposed with no capture in
flight. -/
def vtDisposedState : VTState :=
  { disposed := true, captureNeeded := false, inFlight := false
    previousSnapshot := none, schedulerActive := false, emu := sampleSnapA
    deliveries := [] }

theorem virtualTerminal_dispose_behavior_witness :
    vtStep vtDisposedState (VTAction.writeData sampleSnapB) =
      vtDisposedState ∧
    ([VTAction.writeData sampleSnapB, VTAction.schedulerFire,
        VTAction.captureResume].foldl vtStep vtDisposedState).deliveries =
      vtDisposedState.deliveries :=
  ⟨virtualTerminal_dispose_behavior.1 vtDisposedState sampleSnapB rfl,
    virtualTerminal_dispose_behavior.2.2.1 vtDisposedState
      [VTAction.writeData sampleSnapB, VTAction.schedulerFire,
        VTAction.captureResume] rfl rfl⟩
